import Mathlib

/-!
Shallow embedding of the card-combat engine of `src/src/main.rs`.

The four chapter modules (`chapter1` .. `chapter4`) are near-identical copies of
one combat engine.  This file embeds that engine:

* `card_damage`         mirrors the damage computation of `handle_card_click`
                        (chapter1 lines 2558-2603, chapter4 lines 6262-6325;
                        chapter4 is the superset since only its `CardType` has
                        the `Heal` variant);
* `play_card`           mirrors the rest of `handle_card_click` (damage applied
                        to every monster with `(current - damage).max(0.0)`,
                        dead monsters despawned, `pending_air_cards += 2` on
                        Air, card appended to `cards_played_this_turn`,
                        `first_card_played := false`, card removed from hand);
* `apply_attack` /
  `resolve_enemy_attack` mirror `process_turn` (lines 2682-2751 / 6395-6464):
                        each living monster's fixed damage is applied to the
                        player in order, a death screen is spawned on every
                        application that leaves the player at health <= 0, and
                        afterwards the turn owner is unconditionally switched
                        back to `Turn::Player`;
* `end_turn`            mirrors `handle_end_turn_button` (lines 2803-2836 /
                        6516-6549): while it is the player's turn, spawn
                        `pending_air_cards` Air cards into the hand and switch
                        to the enemy turn; the enemy turn then resolves on the
                        next frame (`process_turn` precedes the button handler
                        in the chained system list, so resolution happens one
                        frame later and is folded into `end_turn` here);
* `check_victory`       mirrors `check_victory_condition` (lines 3512-3526 /
                        7138-7152): runs at the end of every frame, spawns the
                        victory screen when every monster is dead and no
                        victory screen exists yet.

`update_turn_state` (lines 2942-2949, identical in all chapters) has a fully
commented-out body and is therefore a no-op; nothing in this model resets
`first_card_played`, `cards_played_this_turn`, `crystal_power`, `turn_count`
or `pending_air_cards` between turns, exactly as in the source.

All health, damage and counter values in the source are `f32` / `i32`, but
every value that actually occurs is a small integer (constants 2..15, healths
21..100) and the only operations are addition, subtraction, negation,
multiplication by 2 and `max 0`, all of which are exact on integer-valued
`f32` in this range; the `(current - maximum).abs() < f32::EPSILON` test of
the Heal branch is equality on such values.  The embedding therefore uses
`Int` throughout, which represents the source arithmetic exactly.
-/

namespace SpritiedTowards

/-- Card kinds, from `enum CardType` of chapter4 (lines 5966-5974); the
chapter1-3 enums are the same minus `Heal`, and their hands never contain
`Heal`. -/
inductive CardType
  | Fire
  | Ice
  | Air
  | Earth
  | Crystal
  | Heal
deriving DecidableEq

/-- `struct Health { current: f32, maximum: f32 }` (lines 2253-2256). -/
structure Health where
  current : Int
  maximum : Int
deriving DecidableEq

/-- One hostile participant: a `Monster` entity with its `Health` component
and fixed `Damage` component (line 2273). -/
structure MonsterS where
  health : Health
  damage : Int
deriving DecidableEq

/-- `enum Turn { Player, Enemy }` (lines 2482-2485). -/
inductive Turn
  | Player
  | Enemy
deriving DecidableEq

/-- The combat session state of one encounter: the `FightState` and
`TurnState` resources, the player's (`SideCharacter`) health, the living
monster entities and the hand of `Card` entities, plus the victory/death
screen entities spawned by the outcome checks (`victory_spawns` /
`death_screens` count how many times each screen has been spawned). -/
structure Session where
  player_health : Health
  monsters : List MonsterS
  hand : List CardType
  current_turn : Turn
  first_card_played : Bool
  cards_played_this_turn : List CardType
  crystal_power : Int
  turn_count : Int
  pending_air_cards : Int
  death_screens : Nat
  victory_screen : Bool
  victory_spawns : Nat
deriving DecidableEq

/-- `const FIRE_BASE_DAMAGE: f32 = 8.0` (line 2439 / 6150). -/
def FIRE_BASE_DAMAGE : Int := 8

/-- `const FIRE_FIRST_CARD_BONUS: f32 = 7.0` (line 2440 / 6151). -/
def FIRE_FIRST_CARD_BONUS : Int := 7

/-- `const ICE_BASE_DAMAGE: f32 = 6.0` (line 2441 / 6152). -/
def ICE_BASE_DAMAGE : Int := 6

/-- `const CRYSTAL_BASE_DAMAGE: f32 = 4.0` (line 2442 / 6153). -/
def CRYSTAL_BASE_DAMAGE : Int := 4

/-- `const AIR_BASE_DAMAGE: f32 = 2.0` (line 2443 / 6154). -/
def AIR_BASE_DAMAGE : Int := 2

/-- `const EARTH_BASE_DAMAGE: f32 = 5.0` (line 2444 / 6155). -/
def EARTH_BASE_DAMAGE : Int := 5

/-- `const HEAL_BASE_DAMAGE: f32 = 8.0` of chapter4 (line 6156), the only
chapter whose card set has `Heal`; the chapter1 constant `5.0` is dead code. -/
def HEAL_BASE_DAMAGE : Int := 8

/-- The damage computation of `handle_card_click` (chapter4, lines 6262-6325;
chapter1 lines 2558-2603 are identical minus the `Heal` arm).  `card` is the
clicked card's `CardType`; the hand still contains the clicked card when
`cards_in_hand` is counted, and `cards_played_this_turn` does not yet contain
it.  The `Heal` arm returns `HEAL_BASE_DAMAGE` when some monster satisfies
`(current - maximum).abs() < f32::EPSILON` and `-HEAL_BASE_DAMAGE` otherwise
(lines 6301-6318). -/
def card_damage (s : Session) (card : CardType) : Int :=
  if card = CardType.Fire ∧ s.first_card_played then
    FIRE_BASE_DAMAGE + FIRE_FIRST_CARD_BONUS
  else
    match card with
    | CardType.Fire => FIRE_BASE_DAMAGE
    | CardType.Ice =>
        let d :=
          match s.cards_played_this_turn.getLast? with
          | some CardType.Fire => ICE_BASE_DAMAGE * 2
          | _ => ICE_BASE_DAMAGE
        if s.cards_played_this_turn.contains CardType.Earth then 0 else d
    | CardType.Crystal =>
        CRYSTAL_BASE_DAMAGE + (s.cards_played_this_turn.length : Int) * 2 +
          s.crystal_power
    | CardType.Air => AIR_BASE_DAMAGE
    | CardType.Heal =>
        if s.monsters.any (fun m => m.health.current == m.health.maximum) then
          HEAL_BASE_DAMAGE
        else
          -HEAL_BASE_DAMAGE
    | CardType.Earth =>
        EARTH_BASE_DAMAGE + (s.hand.length : Int) + s.turn_count

/-- Damage application of `handle_card_click` (lines 2606-2643 / 6328-6365):
every monster's health becomes `(current - damage).max(0.0)` and monsters
whose health is now `<= 0.0` are despawned. -/
def apply_damage_to_monsters (damage : Int) (monsters : List MonsterS) :
    List MonsterS :=
  (monsters.map (fun m =>
      { m with health := { m.health with
          current := max (m.health.current - damage) 0 } })).filter
    (fun m => decide (0 < m.health.current))

/-- `check_victory_condition` (lines 3512-3526 / 7138-7152): if no victory
screen exists and every monster's health is `<= 0.0` (a despawned monster is
simply absent from the query), spawn the victory screen. -/
def check_victory (s : Session) : Session :=
  if s.victory_screen then s
  else if s.monsters.all (fun m => decide (m.health.current ≤ 0)) then
    { s with victory_screen := true, victory_spawns := s.victory_spawns + 1 }
  else s

/-- One card click, `handle_card_click` (lines 2529-2661 / 6240-6383): ignored
unless `current_turn == Turn::Player`; ignored when `i` names no card in the
hand; otherwise the damage is computed and applied to every monster, dead
monsters are despawned, `pending_air_cards` grows by 2 for Air, the card is
appended to `cards_played_this_turn`, `first_card_played` is cleared and the
card entity is despawned.  `check_victory_condition` runs later in the same
chained frame and sees the despawned monsters. -/
def play_card (i : Nat) (s : Session) : Session :=
  if s.current_turn ≠ Turn.Player then s
  else
    match s.hand.get? i with
    | none => s
    | some card =>
        let damage := card_damage s card
        check_victory
          { s with
            monsters := apply_damage_to_monsters damage s.monsters,
            pending_air_cards :=
              if card = CardType.Air then s.pending_air_cards + 2
              else s.pending_air_cards,
            cards_played_this_turn := s.cards_played_this_turn ++ [card],
            first_card_played := false,
            hand := s.hand.eraseIdx i }

/-- One iteration of the damage loop of `process_turn` (lines 2704-2745 /
6417-6458): the player's health becomes `(current - damage).max(0.0)` and a
death screen is spawned whenever the result is `<= 0.0`. -/
def apply_attack (s : Session) (d : Int) : Session :=
  if max (s.player_health.current - d) 0 ≤ 0 then
    { s with
      player_health := { s.player_health with
        current := max (s.player_health.current - d) 0 },
      death_screens := s.death_screens + 1 }
  else
    { s with
      player_health := { s.player_health with
        current := max (s.player_health.current - d) 0 } }

/-- `process_turn` (lines 2682-2751 / 6395-6464): runs only while
`current_turn == Turn::Enemy`; collects the fixed damage of every monster
with health `> 0.0`, applies each to the player in order, and then
unconditionally switches the turn back to `Turn::Player`. -/
def resolve_enemy_attack (s : Session) : Session :=
  if s.current_turn = Turn.Enemy then
    let attacks :=
      (s.monsters.filter (fun m => decide (0 < m.health.current))).map
        (fun m => m.damage)
    { attacks.foldl apply_attack s with current_turn := Turn.Player }
  else s

/-- One press of the end-turn button, `handle_end_turn_button` (lines
2803-2836 / 6516-6549), composed with the enemy resolution that follows on
the next frame: while it is the player's turn, `pending_air_cards` Air cards
are spawned into the hand (the counter is NOT reset afterwards — the reset in
`update_turn_state` is commented out) and the turn switches to the enemy;
`process_turn` then resolves the enemy turn and `check_victory_condition`
runs at the end of that frame.  A press while it is already the enemy's turn
does nothing. -/
def end_turn (s : Session) : Session :=
  if s.current_turn = Turn.Player then
    check_victory
      (resolve_enemy_attack
        { s with
          hand := s.hand ++
            List.replicate s.pending_air_cards.toNat CardType.Air,
          current_turn := Turn.Enemy })
  else s

/-- The two external actions the presentation layer feeds the engine. -/
inductive Action
  | playCard (i : Nat)
  | endTurn
deriving DecidableEq

/-- One external action applied to the session. -/
def step (s : Session) (a : Action) : Session :=
  match a with
  | Action.playCard i => play_card i s
  | Action.endTurn => end_turn s

/-- An encounter configuration (spec section 6): player maximum health, the
hostile roster as (maximum health, fixed attack damage) pairs, and the
initial hand. -/
structure EncounterConfig where
  player_max : Int
  monster_specs : List (Int × Int)
  initial_hand : List CardType
deriving DecidableEq

/-- The session a chapter's setup function constructs: everyone at full
health, `TurnState` as inserted by `chapter1_setup` (lines 2957-2963 /
6670-6676): `first_card_played: true`, empty played list, zero counters. -/
def init_session (cfg : EncounterConfig) : Session :=
  { player_health := { current := cfg.player_max, maximum := cfg.player_max },
    monsters := cfg.monster_specs.map (fun p =>
      { health := { current := p.1, maximum := p.1 }, damage := p.2 }),
    hand := cfg.initial_hand,
    current_turn := Turn.Player,
    first_card_played := true,
    cards_played_this_turn := [],
    crystal_power := 0,
    turn_count := 0,
    pending_air_cards := 0,
    death_screens := 0,
    victory_screen := false,
    victory_spawns := 0 }

/-- Run a list of actions from a given session state. -/
def run_from (s : Session) (acts : List Action) : Session :=
  acts.foldl step s

/-- Run a list of actions from a freshly constructed encounter. -/
def run (cfg : EncounterConfig) (acts : List Action) : Session :=
  run_from (init_session cfg) acts

/-- Chapter 1 encounter: player 100 (line 3090), monsters 40/40 with damages
15 and 10 (lines 3132-3243), hand Earth, Crystal, Fire, Ice (lines
3373-3377). -/
def chapter1_config : EncounterConfig :=
  { player_max := 100,
    monster_specs := [(40, 15), (40, 10)],
    initial_hand :=
      [CardType.Earth, CardType.Crystal, CardType.Fire, CardType.Ice] }

/-- Chapter 2 encounter: player 100 (line 4350), monsters 21/21 with damages
25 and 10 (lines 4392-4503), hand Ice, Earth, Crystal (lines 4632-4637). -/
def chapter2_config : EncounterConfig :=
  { player_max := 100,
    monster_specs := [(21, 25), (21, 10)],
    initial_hand := [CardType.Ice, CardType.Earth, CardType.Crystal] }

/-- Chapter 3 encounter: player 100 (line 5608), one monster 44/44 with
damage 50 (lines 5650-5674), hand Earth, Crystal, Fire, Ice (lines
5804-5807). -/
def chapter3_config : EncounterConfig :=
  { player_max := 100,
    monster_specs := [(44, 50)],
    initial_hand :=
      [CardType.Earth, CardType.Crystal, CardType.Fire, CardType.Ice] }

/-- Chapter 4 encounter (the hardest, the only one with Heal): player 100
(line 6803), one monster 44/44 with damage 100 (lines 6845-6869), hand
Earth, Crystal, Fire, Ice, Heal (lines 6999-7003). -/
def chapter4_config : EncounterConfig :=
  { player_max := 100,
    monster_specs := [(44, 100)],
    initial_hand :=
      [CardType.Earth, CardType.Crystal, CardType.Fire, CardType.Ice,
        CardType.Heal] }

/-! ### Field preservation views

`apply_attack` only touches `player_health.current` and `death_screens`;
`check_victory` only touches `victory_screen` and `victory_spawns`.  The two
view structures collect the untouched fields so that one lemma per operation
covers them all. -/

/-- The session fields untouched by `apply_attack`. -/
structure AttackView where
  monsters : List MonsterS
  hand : List CardType
  current_turn : Turn
  first_card_played : Bool
  cards_played_this_turn : List CardType
  crystal_power : Int
  turn_count : Int
  pending_air_cards : Int
  victory_screen : Bool
  victory_spawns : Nat
  player_maximum : Int

/-- Project a session onto the fields untouched by `apply_attack`. -/
def attackView (s : Session) : AttackView :=
  { monsters := s.monsters, hand := s.hand, current_turn := s.current_turn,
    first_card_played := s.first_card_played,
    cards_played_this_turn := s.cards_played_this_turn,
    crystal_power := s.crystal_power, turn_count := s.turn_count,
    pending_air_cards := s.pending_air_cards,
    victory_screen := s.victory_screen, victory_spawns := s.victory_spawns,
    player_maximum := s.player_health.maximum }

/-- The session fields untouched by `check_victory`. -/
structure VictoryView where
  player_health : Health
  monsters : List MonsterS
  hand : List CardType
  current_turn : Turn
  first_card_played : Bool
  cards_played_this_turn : List CardType
  crystal_power : Int
  turn_count : Int
  pending_air_cards : Int
  death_screens : Nat

/-- Project a session onto the fields untouched by `check_victory`. -/
def victoryView (s : Session) : VictoryView :=
  { player_health := s.player_health, monsters := s.monsters, hand := s.hand,
    current_turn := s.current_turn,
    first_card_played := s.first_card_played,
    cards_played_this_turn := s.cards_played_this_turn,
    crystal_power := s.crystal_power, turn_count := s.turn_count,
    pending_air_cards := s.pending_air_cards,
    death_screens := s.death_screens }

lemma apply_attack_view (s : Session) (d : Int) :
    attackView (apply_attack s d) = attackView s := by
  unfold apply_attack
  split <;> rfl

lemma foldl_apply_attack_view (l : List Int) (s : Session) :
    attackView (l.foldl apply_attack s) = attackView s := by
  induction l generalizing s with
  | nil => rfl
  | cons d l ih =>
      rw [List.foldl_cons, ih, apply_attack_view]

lemma check_victory_view (s : Session) :
    victoryView (check_victory s) = victoryView s := by
  unfold check_victory
  split
  · rfl
  · split <;> rfl

lemma apply_attack_player_current (s : Session) (d : Int) :
    (apply_attack s d).player_health.current =
      max (s.player_health.current - d) 0 := by
  unfold apply_attack
  split <;> rfl

lemma apply_attack_player_maximum (s : Session) (d : Int) :
    (apply_attack s d).player_health.maximum = s.player_health.maximum :=
  congrArg AttackView.player_maximum (apply_attack_view s d)

/-- The attack loop keeps the player's health between 0 and its value before
the loop, provided every attack value is nonnegative. -/
lemma foldl_apply_attack_player (l : List Int) (s : Session)
    (hl : ∀ d ∈ l, 0 ≤ d) (h0 : 0 ≤ s.player_health.current) :
    0 ≤ (l.foldl apply_attack s).player_health.current ∧
      (l.foldl apply_attack s).player_health.current ≤
        s.player_health.current := by
  induction l generalizing s with
  | nil => exact ⟨h0, le_refl _⟩
  | cons d l ih =>
      have hd : 0 ≤ d := hl d (List.mem_cons_self _ _)
      have hcur := apply_attack_player_current s d
      rw [List.foldl_cons]
      have hrest := ih (apply_attack s d)
        (fun e he => hl e (List.mem_cons_of_mem _ he))
        (by rw [hcur]; exact le_max_right _ _)
      refine ⟨hrest.1, le_trans hrest.2 ?_⟩
      rw [hcur]
      exact max_le (by omega) h0

lemma end_turn_eq_of_player {s : Session} (h : s.current_turn = Turn.Player) :
    end_turn s =
      check_victory
        (resolve_enemy_attack
          { s with
            hand := s.hand ++
              List.replicate s.pending_air_cards.toNat CardType.Air,
            current_turn := Turn.Enemy }) := by
  unfold end_turn
  rw [if_pos h]

lemma resolve_enemy_attack_eq_of_enemy {s : Session}
    (h : s.current_turn = Turn.Enemy) :
    resolve_enemy_attack s =
      { ((s.monsters.filter (fun m => decide (0 < m.health.current))).map
          (fun m => m.damage)).foldl apply_attack s with
        current_turn := Turn.Player } := by
  unfold resolve_enemy_attack
  rw [if_pos h]

lemma play_card_eq_of_some {s : Session} {i : Nat} {card : CardType}
    (h1 : s.current_turn = Turn.Player) (h2 : s.hand.get? i = some card) :
    play_card i s =
      check_victory
        { s with
          monsters :=
            apply_damage_to_monsters (card_damage s card) s.monsters,
          pending_air_cards :=
            if card = CardType.Air then s.pending_air_cards + 2
            else s.pending_air_cards,
          cards_played_this_turn := s.cards_played_this_turn ++ [card],
          first_card_played := false,
          hand := s.hand.eraseIdx i } := by
  unfold play_card
  rw [if_neg (by simp [h1]), h2]

lemma play_card_eq_of_not_player {s : Session} {i : Nat}
    (h : s.current_turn ≠ Turn.Player) : play_card i s = s := by
  unfold play_card
  rw [if_pos h]

lemma play_card_eq_of_none {s : Session} {i : Nat}
    (h : s.hand.get? i = none) : play_card i s = s := by
  unfold play_card
  split
  · rfl
  · rw [h]

lemma end_turn_eq_of_enemy {s : Session} (h : s.current_turn ≠ Turn.Player) :
    end_turn s = s := by
  unfold end_turn
  rw [if_neg h]

/-- Every monster surviving `apply_damage_to_monsters` is a monster of the
input roster with `damage` subtracted from its health (clamped at 0). -/
lemma mem_apply_damage_to_monsters {damage : Int} {monsters : List MonsterS}
    {m : MonsterS} (h : m ∈ apply_damage_to_monsters damage monsters) :
    ∃ m0 ∈ monsters,
      m = { m0 with health := { m0.health with
              current := max (m0.health.current - damage) 0 } } := by
  unfold apply_damage_to_monsters at h
  rcases List.mem_filter.mp h with ⟨h1, _⟩
  rcases List.mem_map.mp h1 with ⟨m0, hm0, rfl⟩
  exact ⟨m0, hm0, rfl⟩

/-! ### Damage formula lemmas -/

/-- The Ice arm of the resolver, in closed form: Earth in the played list
forces 0 regardless of the Fire bonus; otherwise a Fire as the last played
card doubles the base damage. -/
lemma card_damage_ice (s : Session) :
    card_damage s CardType.Ice =
      if s.cards_played_this_turn.contains CardType.Earth then 0
      else if s.cards_played_this_turn.getLast? = some CardType.Fire then
        ICE_BASE_DAMAGE * 2
      else ICE_BASE_DAMAGE := by
  unfold card_damage
  rw [if_neg (by simp)]
  rcases hL : s.cards_played_this_turn.getLast? with _ | c
  · simp [hL]
  · cases c <;> simp [hL]

/-- The Fire arm of the resolver, in closed form. -/
lemma card_damage_fire (s : Session) :
    card_damage s CardType.Fire =
      if s.first_card_played then FIRE_BASE_DAMAGE + FIRE_FIRST_CARD_BONUS
      else FIRE_BASE_DAMAGE := by
  unfold card_damage
  cases h : s.first_card_played <;> simp [h]

/-- The Air arm of the resolver: always the flat base damage. -/
lemma card_damage_air (s : Session) :
    card_damage s CardType.Air = AIR_BASE_DAMAGE := by
  unfold card_damage
  simp

/-- Every card except Heal resolves to nonnegative damage as long as the
crystal-power and turn counters are nonnegative (they are constantly 0 in
every reachable state). -/
lemma card_damage_nonneg {s : Session} {card : CardType}
    (hc : card ≠ CardType.Heal) (h1 : 0 ≤ s.crystal_power)
    (h2 : 0 ≤ s.turn_count) : 0 ≤ card_damage s card := by
  cases card with
  | Fire =>
      rw [card_damage_fire]
      split <;> decide
  | Ice =>
      rw [card_damage_ice]
      split
      · decide
      · split <;> decide
  | Crystal =>
      unfold card_damage
      rw [if_neg (by simp)]
      show (0 : Int) ≤ CRYSTAL_BASE_DAMAGE +
        (s.cards_played_this_turn.length : Int) * 2 + s.crystal_power
      unfold CRYSTAL_BASE_DAMAGE
      omega
  | Air =>
      rw [card_damage_air]
      decide
  | Earth =>
      unfold card_damage
      rw [if_neg (by simp)]
      show (0 : Int) ≤ EARTH_BASE_DAMAGE + (s.hand.length : Int) + s.turn_count
      unfold EARTH_BASE_DAMAGE
      omega
  | Heal => exact absurd rfl hc

/-! ### Invariants -/

/-- Health facts that hold in every reachable state of every encounter:
player health within `[0, maximum]`, monster health nonnegative, monster
attack values nonnegative, counters nonnegative. -/
def GoodState (s : Session) : Prop :=
  0 ≤ s.player_health.current ∧
  s.player_health.current ≤ s.player_health.maximum ∧
  (∀ m ∈ s.monsters, 0 ≤ m.health.current) ∧
  (∀ m ∈ s.monsters, 0 ≤ m.damage) ∧
  0 ≤ s.crystal_power ∧ 0 ≤ s.turn_count

/-- Extra facts holding when the encounter's hand never contains Heal
(chapters 1-3): the hand stays Heal-free and monster health also never
exceeds its maximum. -/
def NoHealState (s : Session) : Prop :=
  CardType.Heal ∉ s.hand ∧
  ∀ m ∈ s.monsters, m.health.current ≤ m.health.maximum

lemma goodState_check_victory {s : Session} (h : GoodState s) :
    GoodState (check_victory s) := by
  have hv := check_victory_view s
  have hp : (check_victory s).player_health = s.player_health :=
    congrArg VictoryView.player_health hv
  have hm : (check_victory s).monsters = s.monsters :=
    congrArg VictoryView.monsters hv
  have hc : (check_victory s).crystal_power = s.crystal_power :=
    congrArg VictoryView.crystal_power hv
  have ht : (check_victory s).turn_count = s.turn_count :=
    congrArg VictoryView.turn_count hv
  unfold GoodState
  rw [hp, hm, hc, ht]
  exact h

lemma goodState_play_card {s : Session} (i : Nat) (h : GoodState s) :
    GoodState (play_card i s) := by
  by_cases ht : s.current_turn = Turn.Player
  · rcases hg : s.hand.get? i with _ | card
    · rw [play_card_eq_of_none hg]; exact h
    · rw [play_card_eq_of_some ht hg]
      apply goodState_check_victory
      obtain ⟨h0, h1, h2, h3, h4, h5⟩ := h
      refine ⟨h0, h1, ?_, ?_, h4, h5⟩
      · intro m hm
        rcases mem_apply_damage_to_monsters hm with ⟨m0, _, rfl⟩
        exact le_max_right _ _
      · intro m hm
        rcases mem_apply_damage_to_monsters hm with ⟨m0, hm0, rfl⟩
        exact h3 m0 hm0
  · rw [play_card_eq_of_not_player ht]; exact h

lemma goodState_end_turn {s : Session} (h : GoodState s) :
    GoodState (end_turn s) := by
  by_cases ht : s.current_turn = Turn.Player
  · rw [end_turn_eq_of_player ht]
    apply goodState_check_victory
    set s1 : Session :=
      { s with
        hand := s.hand ++ List.replicate s.pending_air_cards.toNat CardType.Air,
        current_turn := Turn.Enemy } with hs1
    rw [resolve_enemy_attack_eq_of_enemy (s := s1) rfl]
    obtain ⟨h0, h1, h2, h3, h4, h5⟩ := h
    set attacks : List Int :=
      (s1.monsters.filter (fun m => decide (0 < m.health.current))).map
        (fun m => m.damage) with hatt
    have hnn : ∀ d ∈ attacks, 0 ≤ d := by
      intro d hd
      rcases List.mem_map.mp hd with ⟨m, hm, rfl⟩
      exact h3 m (List.mem_of_mem_filter hm)
    have hbound := foldl_apply_attack_player attacks s1 hnn h0
    have hview := foldl_apply_attack_view attacks s1
    have hmons : (attacks.foldl apply_attack s1).monsters = s1.monsters :=
      congrArg AttackView.monsters hview
    have hmax : (attacks.foldl apply_attack s1).player_health.maximum =
        s1.player_health.maximum :=
      congrArg AttackView.player_maximum hview
    have hcr : (attacks.foldl apply_attack s1).crystal_power =
        s1.crystal_power := congrArg AttackView.crystal_power hview
    have htc : (attacks.foldl apply_attack s1).turn_count = s1.turn_count :=
      congrArg AttackView.turn_count hview
    refine ⟨hbound.1, ?_, ?_, ?_, ?_, ?_⟩
    · show (attacks.foldl apply_attack s1).player_health.current ≤
        (attacks.foldl apply_attack s1).player_health.maximum
      rw [hmax]
      exact le_trans hbound.2 h1
    · show ∀ m ∈ (attacks.foldl apply_attack s1).monsters, _
      rw [hmons]; exact h2
    · show ∀ m ∈ (attacks.foldl apply_attack s1).monsters, _
      rw [hmons]; exact h3
    · show 0 ≤ (attacks.foldl apply_attack s1).crystal_power
      rw [hcr]; exact h4
    · show 0 ≤ (attacks.foldl apply_attack s1).turn_count
      rw [htc]; exact h5
  · rw [end_turn_eq_of_enemy ht]; exact h

lemma goodState_step {s : Session} (a : Action) (h : GoodState s) :
    GoodState (step s a) := by
  cases a with
  | playCard i => exact goodState_play_card i h
  | endTurn => exact goodState_end_turn h

lemma goodState_run_from {s : Session} (acts : List Action)
    (h : GoodState s) : GoodState (run_from s acts) := by
  induction acts generalizing s with
  | nil => exact h
  | cons a acts ih => exact ih (goodState_step a h)

lemma noHealState_check_victory {s : Session} (h : NoHealState s) :
    NoHealState (check_victory s) := by
  have hv := check_victory_view s
  have hh : (check_victory s).hand = s.hand :=
    congrArg VictoryView.hand hv
  have hm : (check_victory s).monsters = s.monsters :=
    congrArg VictoryView.monsters hv
  unfold NoHealState
  rw [hh, hm]
  exact h

lemma noHealState_play_card {s : Session} (i : Nat) (hg : GoodState s)
    (h : NoHealState s) : NoHealState (play_card i s) := by
  by_cases ht : s.current_turn = Turn.Player
  · rcases hx : s.hand.get? i with _ | card
    · rw [play_card_eq_of_none hx]; exact h
    · rw [play_card_eq_of_some ht hx]
      apply noHealState_check_victory
      obtain ⟨hhand, hmons⟩ := h
      have hcard : card ≠ CardType.Heal := by
        intro hc
        exact hhand (hc ▸ List.get?_mem hx)
      have hd : 0 ≤ card_damage s card :=
        card_damage_nonneg hcard hg.2.2.2.2.1 hg.2.2.2.2.2
      constructor
      · show CardType.Heal ∉ s.hand.eraseIdx i
        intro hmem
        exact hhand (List.eraseIdx_subset _ _ hmem)
      · show ∀ m ∈ apply_damage_to_monsters (card_damage s card) s.monsters, _
        intro m hm
        rcases mem_apply_damage_to_monsters hm with ⟨m0, hm0, rfl⟩
        show max (m0.health.current - card_damage s card) 0 ≤
          m0.health.maximum
        have h0 : 0 ≤ m0.health.current := hg.2.2.1 m0 hm0
        have hM : m0.health.current ≤ m0.health.maximum := hmons m0 hm0
        exact max_le (by omega) (by omega)
  · rw [play_card_eq_of_not_player ht]; exact h

lemma noHealState_end_turn {s : Session} (h : NoHealState s) :
    NoHealState (end_turn s) := by
  by_cases ht : s.current_turn = Turn.Player
  · rw [end_turn_eq_of_player ht]
    apply noHealState_check_victory
    set s1 : Session :=
      { s with
        hand := s.hand ++ List.replicate s.pending_air_cards.toNat CardType.Air,
        current_turn := Turn.Enemy } with hs1
    rw [resolve_enemy_attack_eq_of_enemy (s := s1) rfl]
    set attacks : List Int :=
      (s1.monsters.filter (fun m => decide (0 < m.health.current))).map
        (fun m => m.damage) with hatt
    have hview := foldl_apply_attack_view attacks s1
    have hmons : (attacks.foldl apply_attack s1).monsters = s1.monsters :=
      congrArg AttackView.monsters hview
    have hhand : (attacks.foldl apply_attack s1).hand = s1.hand :=
      congrArg AttackView.hand hview
    constructor
    · show CardType.Heal ∉ (attacks.foldl apply_attack s1).hand
      rw [hhand]
      show CardType.Heal ∉ s.hand ++
        List.replicate s.pending_air_cards.toNat CardType.Air
      intro hmem
      rcases List.mem_append.mp hmem with hmem | hmem
      · exact h.1 hmem
      · exact absurd (List.eq_of_mem_replicate hmem) (by decide)
    · show ∀ m ∈ (attacks.foldl apply_attack s1).monsters, _
      rw [hmons]
      exact h.2
  · rw [end_turn_eq_of_enemy ht]; exact h

lemma noHealState_run_from {s : Session} (acts : List Action)
    (hg : GoodState s) (h : NoHealState s) :
    NoHealState (run_from s acts) := by
  induction acts generalizing s with
  | nil => exact h
  | cons a acts ih =>
      refine ih (goodState_step a hg) ?_
      cases a with
      | playCard i => exact noHealState_play_card i hg h
      | endTurn => exact noHealState_end_turn h

/-- The first-card flag is true exactly when the played list is empty.  This
holds initially and is preserved because both are written together and the
commented-out `update_turn_state` never resets either. -/
def FirstInv (s : Session) : Prop :=
  s.first_card_played = true ↔ s.cards_played_this_turn = []

lemma firstInv_step {s : Session} (a : Action) (h : FirstInv s) :
    FirstInv (step s a) := by
  cases a with
  | playCard i =>
      show FirstInv (play_card i s)
      by_cases ht : s.current_turn = Turn.Player
      · rcases hx : s.hand.get? i with _ | card
        · rw [play_card_eq_of_none hx]; exact h
        · rw [play_card_eq_of_some ht hx]
          unfold FirstInv
          rw [show ∀ t : Session, (check_victory t).first_card_played =
              t.first_card_played from fun t =>
              congrArg VictoryView.first_card_played (check_victory_view t)]
          rw [show ∀ t : Session, (check_victory t).cards_played_this_turn =
              t.cards_played_this_turn from fun t =>
              congrArg VictoryView.cards_played_this_turn (check_victory_view t)]
          simp
      · rw [play_card_eq_of_not_player ht]; exact h
  | endTurn =>
      show FirstInv (end_turn s)
      by_cases ht : s.current_turn = Turn.Player
      · rw [end_turn_eq_of_player ht]
        set s1 : Session :=
          { s with
            hand := s.hand ++
              List.replicate s.pending_air_cards.toNat CardType.Air,
            current_turn := Turn.Enemy } with hs1
        rw [resolve_enemy_attack_eq_of_enemy (s := s1) rfl]
        set attacks : List Int :=
          (s1.monsters.filter (fun m => decide (0 < m.health.current))).map
            (fun m => m.damage) with hatt
        set r : Session :=
          { attacks.foldl apply_attack s1 with current_turn := Turn.Player }
          with hr
        have hview := foldl_apply_attack_view attacks s1
        have hf2 : r.first_card_played = s.first_card_played :=
          congrArg AttackView.first_card_played hview
        have hc2 : r.cards_played_this_turn = s.cards_played_this_turn :=
          congrArg AttackView.cards_played_this_turn hview
        unfold FirstInv
        rw [show (check_victory r).first_card_played = r.first_card_played from
            congrArg VictoryView.first_card_played (check_victory_view r)]
        rw [show (check_victory r).cards_played_this_turn =
            r.cards_played_this_turn from
            congrArg VictoryView.cards_played_this_turn (check_victory_view r)]
        rw [hf2, hc2]
        exact h
      · rw [end_turn_eq_of_enemy ht]; exact h

lemma firstInv_run_from {s : Session} (acts : List Action) (h : FirstInv s) :
    FirstInv (run_from s acts) := by
  induction acts generalizing s with
  | nil => exact h
  | cons a acts ih => exact ih (firstInv_step a h)

/-- The played-cards list only ever grows: every step appends. -/
lemma step_cards_append (s : Session) (a : Action) :
    ∃ t, (step s a).cards_played_this_turn =
      s.cards_played_this_turn ++ t := by
  cases a with
  | playCard i =>
      show ∃ t, (play_card i s).cards_played_this_turn = _
      by_cases ht : s.current_turn = Turn.Player
      · rcases hx : s.hand.get? i with _ | card
        · rw [play_card_eq_of_none hx]; exact ⟨[], by simp⟩
        · rw [play_card_eq_of_some ht hx]
          refine ⟨[card], ?_⟩
          rw [show ∀ t : Session, (check_victory t).cards_played_this_turn =
              t.cards_played_this_turn from fun t =>
              congrArg VictoryView.cards_played_this_turn
                (check_victory_view t)]
      · rw [play_card_eq_of_not_player ht]; exact ⟨[], by simp⟩
  | endTurn =>
      show ∃ t, (end_turn s).cards_played_this_turn = _
      by_cases ht : s.current_turn = Turn.Player
      · rw [end_turn_eq_of_player ht]
        set s1 : Session :=
          { s with
            hand := s.hand ++
              List.replicate s.pending_air_cards.toNat CardType.Air,
            current_turn := Turn.Enemy } with hs1
        rw [resolve_enemy_attack_eq_of_enemy (s := s1) rfl]
        set attacks : List Int :=
          (s1.monsters.filter (fun m => decide (0 < m.health.current))).map
            (fun m => m.damage) with hatt
        set r : Session :=
          { attacks.foldl apply_attack s1 with current_turn := Turn.Player }
          with hr
        refine ⟨[], ?_⟩
        rw [show (check_victory r).cards_played_this_turn =
            r.cards_played_this_turn from
            congrArg VictoryView.cards_played_this_turn (check_victory_view r)]
        have : r.cards_played_this_turn = s.cards_played_this_turn :=
          congrArg AttackView.cards_played_this_turn
            (foldl_apply_attack_view attacks s1)
        rw [this]
        simp
      · rw [end_turn_eq_of_enemy ht]; exact ⟨[], by simp⟩

lemma run_from_cards_append (s : Session) (acts : List Action) :
    ∃ t, (run_from s acts).cards_played_this_turn =
      s.cards_played_this_turn ++ t := by
  induction acts generalizing s with
  | nil => exact ⟨[], by simp [run_from]⟩
  | cons a acts ih =>
      rcases step_cards_append s a with ⟨t1, h1⟩
      rcases ih (step s a) with ⟨t2, h2⟩
      exact ⟨t1 ++ t2, by
        show (run_from (step s a) acts).cards_played_this_turn = _
        rw [h2, h1, List.append_assoc]⟩

/-- Victory-announcement bookkeeping: the victory screen exists exactly when
it has been spawned exactly once, and it is never spawned twice (the spawn in
`check_victory_condition` is guarded by the screen's existence). -/
def VictoryInv (s : Session) : Prop :=
  (s.victory_screen = true ↔ s.victory_spawns = 1) ∧ s.victory_spawns ≤ 1

lemma check_victory_of_screen {t : Session} (h : t.victory_screen = true) :
    check_victory t = t := by
  unfold check_victory
  rw [if_pos h]

lemma victoryInv_check_victory {s : Session} (h : VictoryInv s) :
    VictoryInv (check_victory s) := by
  unfold check_victory
  split
  · exact h
  · split
    · rename_i hscreen hdead
      have h0 : s.victory_spawns = 0 := by
        rcases h with ⟨hiff, hle⟩
        have h1 : ¬ s.victory_spawns = 1 := fun h1 => hscreen (hiff.mpr h1)
        omega
      unfold VictoryInv
      simp [h0]
    · exact h

lemma victoryInv_step {s : Session} (a : Action) (h : VictoryInv s) :
    VictoryInv (step s a) := by
  cases a with
  | playCard i =>
      show VictoryInv (play_card i s)
      by_cases ht : s.current_turn = Turn.Player
      · rcases hx : s.hand.get? i with _ | card
        · rw [play_card_eq_of_none hx]; exact h
        · rw [play_card_eq_of_some ht hx]
          exact victoryInv_check_victory h
      · rw [play_card_eq_of_not_player ht]; exact h
  | endTurn =>
      show VictoryInv (end_turn s)
      by_cases ht : s.current_turn = Turn.Player
      · rw [end_turn_eq_of_player ht]
        set s1 : Session :=
          { s with
            hand := s.hand ++
              List.replicate s.pending_air_cards.toNat CardType.Air,
            current_turn := Turn.Enemy } with hs1
        rw [resolve_enemy_attack_eq_of_enemy (s := s1) rfl]
        set attacks : List Int :=
          (s1.monsters.filter (fun m => decide (0 < m.health.current))).map
            (fun m => m.damage) with hatt
        set r : Session :=
          { attacks.foldl apply_attack s1 with current_turn := Turn.Player }
          with hr
        apply victoryInv_check_victory
        have hview := foldl_apply_attack_view attacks s1
        have h1 : r.victory_screen = s.victory_screen :=
          congrArg AttackView.victory_screen hview
        have h2 : r.victory_spawns = s.victory_spawns :=
          congrArg AttackView.victory_spawns hview
        unfold VictoryInv
        rw [h1, h2]
        exact h
      · rw [end_turn_eq_of_enemy ht]; exact h

lemma victoryInv_run_from {s : Session} (acts : List Action)
    (h : VictoryInv s) : VictoryInv (run_from s acts) := by
  induction acts generalizing s with
  | nil => exact h
  | cons a acts ih => exact ih (victoryInv_step a h)

/-- Once the victory screen exists, every further action keeps it and never
re-spawns it. -/
lemma victory_persists_step {s : Session} (a : Action)
    (h : s.victory_screen = true) :
    (step s a).victory_screen = true ∧
      (step s a).victory_spawns = s.victory_spawns := by
  cases a with
  | playCard i =>
      show (play_card i s).victory_screen = true ∧
        (play_card i s).victory_spawns = s.victory_spawns
      by_cases ht : s.current_turn = Turn.Player
      · rcases hx : s.hand.get? i with _ | card
        · rw [play_card_eq_of_none hx]; exact ⟨h, rfl⟩
        · rw [play_card_eq_of_some ht hx]
          set t : Session :=
            { s with
              monsters :=
                apply_damage_to_monsters (card_damage s card) s.monsters,
              pending_air_cards :=
                if card = CardType.Air then s.pending_air_cards + 2
                else s.pending_air_cards,
              cards_played_this_turn := s.cards_played_this_turn ++ [card],
              first_card_played := false,
              hand := s.hand.eraseIdx i } with hts
          have hscr : t.victory_screen = true := h
          rw [check_victory_of_screen hscr]
          exact ⟨h, rfl⟩
      · rw [play_card_eq_of_not_player ht]; exact ⟨h, rfl⟩
  | endTurn =>
      show (end_turn s).victory_screen = true ∧
        (end_turn s).victory_spawns = s.victory_spawns
      by_cases ht : s.current_turn = Turn.Player
      · rw [end_turn_eq_of_player ht]
        set s1 : Session :=
          { s with
            hand := s.hand ++
              List.replicate s.pending_air_cards.toNat CardType.Air,
            current_turn := Turn.Enemy } with hs1
        rw [resolve_enemy_attack_eq_of_enemy (s := s1) rfl]
        set attacks : List Int :=
          (s1.monsters.filter (fun m => decide (0 < m.health.current))).map
            (fun m => m.damage) with hatt
        set r : Session :=
          { attacks.foldl apply_attack s1 with current_turn := Turn.Player }
          with hr
        have hview := foldl_apply_attack_view attacks s1
        have h1 : r.victory_screen = s.victory_screen :=
          congrArg AttackView.victory_screen hview
        have h2 : r.victory_spawns = s.victory_spawns :=
          congrArg AttackView.victory_spawns hview
        rw [check_victory_of_screen (h1.trans h)]
        exact ⟨h1.trans h, h2⟩
      · rw [end_turn_eq_of_enemy ht]; exact ⟨h, rfl⟩

lemma victory_persists_run_from {s : Session} (acts : List Action)
    (h : s.victory_screen = true) :
    (run_from s acts).victory_screen = true ∧
      (run_from s acts).victory_spawns = s.victory_spawns := by
  induction acts generalizing s with
  | nil => exact ⟨h, rfl⟩
  | cons a acts ih =>
      rcases victory_persists_step a h with ⟨h1, h2⟩
      rcases ih (s := step s a) h1 with ⟨h3, h4⟩
      exact ⟨h3, h4.trans h2⟩

/-! ### Projection lemmas for single actions -/

lemma play_card_proj {s : Session} {i : Nat} {card : CardType}
    (ht : s.current_turn = Turn.Player) (hx : s.hand.get? i = some card) :
    (play_card i s).cards_played_this_turn =
        s.cards_played_this_turn ++ [card] ∧
      (play_card i s).hand = s.hand.eraseIdx i ∧
      (play_card i s).pending_air_cards =
        (if card = CardType.Air then s.pending_air_cards + 2
         else s.pending_air_cards) ∧
      (play_card i s).current_turn = Turn.Player ∧
      (play_card i s).monsters =
        apply_damage_to_monsters (card_damage s card) s.monsters ∧
      (play_card i s).player_health = s.player_health := by
  rw [play_card_eq_of_some ht hx]
  set t : Session :=
    { s with
      monsters := apply_damage_to_monsters (card_damage s card) s.monsters,
      pending_air_cards :=
        if card = CardType.Air then s.pending_air_cards + 2
        else s.pending_air_cards,
      cards_played_this_turn := s.cards_played_this_turn ++ [card],
      first_card_played := false,
      hand := s.hand.eraseIdx i } with hts
  have hv := check_victory_view t
  exact ⟨congrArg VictoryView.cards_played_this_turn hv,
    congrArg VictoryView.hand hv,
    congrArg VictoryView.pending_air_cards hv,
    (congrArg VictoryView.current_turn hv).trans ht,
    congrArg VictoryView.monsters hv,
    congrArg VictoryView.player_health hv⟩

lemma end_turn_proj {s : Session} (ht : s.current_turn = Turn.Player) :
    (end_turn s).hand =
        s.hand ++ List.replicate s.pending_air_cards.toNat CardType.Air ∧
      (end_turn s).pending_air_cards = s.pending_air_cards ∧
      (end_turn s).current_turn = Turn.Player ∧
      (end_turn s).monsters = s.monsters := by
  rw [end_turn_eq_of_player ht]
  set s1 : Session :=
    { s with
      hand := s.hand ++ List.replicate s.pending_air_cards.toNat CardType.Air,
      current_turn := Turn.Enemy } with hs1
  rw [resolve_enemy_attack_eq_of_enemy (s := s1) rfl]
  set attacks : List Int :=
    (s1.monsters.filter (fun m => decide (0 < m.health.current))).map
      (fun m => m.damage) with hatt
  set r : Session :=
    { attacks.foldl apply_attack s1 with current_turn := Turn.Player } with hr
  have hva := foldl_apply_attack_view attacks s1
  have hvc := check_victory_view r
  refine ⟨?_, ?_, ?_, ?_⟩
  · exact (congrArg VictoryView.hand hvc).trans
      (congrArg AttackView.hand hva)
  · exact (congrArg VictoryView.pending_air_cards hvc).trans
      (congrArg AttackView.pending_air_cards hva)
  · exact congrArg VictoryView.current_turn hvc
  · exact (congrArg VictoryView.monsters hvc).trans
      (congrArg AttackView.monsters hva)

/-! ### Concrete states used by the claim theorems -/

/-- The chapter-1 session after four consecutive end-turn actions: the two
monsters deal 15 + 10 per enemy turn, so the player drops 100 → 75 → 50 →
25 → 0; on the fourth resolution the death screen is spawned and the turn
owner is switched back to Player, hand and monsters untouched. -/
def defeat_state_ch1 : Session :=
  run chapter1_config
    [Action.endTurn, Action.endTurn, Action.endTurn, Action.endTurn]

/-- The chapter-1 session after playing Ice (hand index 3) and ending the
turn: both monsters are at 34/40, the player at 75/100, it is the second
player turn and no card has yet been played in it. -/
def c6_turn2_state : Session :=
  run chapter1_config [Action.playCard 3, Action.endTurn]

/-- A section-6 encounter configuration whose initial hand contains an Air
card (none of the four shipped chapter hands does, but the engine interface
admits any initial hand composition). -/
def air_config : EncounterConfig :=
  { player_max := 100,
    monster_specs := [(40, 10)],
    initial_hand := [CardType.Air] }

/-- The chapter-1 action sequence that kills both 40-health monsters: Fire
first (15 each, → 25), Ice after Fire (12, → 13), Crystal with two cards
played (8, → 5), Earth with one card left in hand (6, → 0): both monsters
despawn and the victory screen is spawned in the same frame. -/
def ch1_kill_acts : List Action :=
  [Action.playCard 2, Action.playCard 2, Action.playCard 1, Action.playCard 0]

/-! ### C1 -/

/-- C1 is false as stated: in the chapter-4 encounter, playing Ice (index 3,
monster 44 → 38) and then Heal while no hostile is at full health makes the
resolver return `-HEAL_BASE_DAMAGE`, so the monster's health becomes
`38 - (-8) = 46`, strictly above its fixed maximum 44. -/
theorem C1_counterexample :
    (run chapter4_config [Action.playCard 3, Action.playCard 3]).monsters =
      [{ health := { current := 46, maximum := 44 }, damage := 100 }] ∧
    ¬ (46 : Int) ≤ 44 := by decide

/-- C1 (amended): for every encounter configuration with nonnegative health
and attack values and every action sequence, health never goes negative and
the player's health never exceeds its maximum; when the initial hand has no
Heal card (chapters 1-3), hostile health also never exceeds its maximum.
The upper bound fails only for hostiles in the Heal-bearing chapter-4
encounter (see the counterexample). -/
theorem C1_health_bounds (cfg : EncounterConfig) (acts : List Action)
    (hp : 0 ≤ cfg.player_max)
    (hm : ∀ p ∈ cfg.monster_specs, 0 ≤ p.1 ∧ 0 ≤ p.2) :
    0 ≤ (run cfg acts).player_health.current ∧
    (run cfg acts).player_health.current ≤
      (run cfg acts).player_health.maximum ∧
    (∀ m ∈ (run cfg acts).monsters, 0 ≤ m.health.current) ∧
    (CardType.Heal ∉ cfg.initial_hand →
      ∀ m ∈ (run cfg acts).monsters,
        m.health.current ≤ m.health.maximum) := by
  have hg0 : GoodState (init_session cfg) := by
    refine ⟨hp, le_refl _, ?_, ?_, le_refl _, le_refl _⟩
    · intro m hmem
      rcases List.mem_map.mp hmem with ⟨p, hp2, rfl⟩
      exact (hm p hp2).1
    · intro m hmem
      rcases List.mem_map.mp hmem with ⟨p, hp2, rfl⟩
      exact (hm p hp2).2
  have hg := goodState_run_from acts hg0
  refine ⟨hg.1, hg.2.1, hg.2.2.1, ?_⟩
  intro hh
  have hn0 : NoHealState (init_session cfg) := by
    refine ⟨hh, ?_⟩
    intro m hmem
    rcases List.mem_map.mp hmem with ⟨p, hp2, rfl⟩
    exact le_refl _
  exact (noHealState_run_from acts hg0 hn0).2

/-- Witness for C1: the amended bounds at the chapter-1 encounter after
playing Fire and ending the turn. -/
theorem C1_health_bounds_witness :
    (0 ≤ chapter1_config.player_max ∧
      (∀ p ∈ chapter1_config.monster_specs, 0 ≤ p.1 ∧ 0 ≤ p.2)) ∧
    (0 ≤ (run chapter1_config [Action.playCard 2, Action.endTurn]
        ).player_health.current ∧
      (run chapter1_config [Action.playCard 2, Action.endTurn]
        ).player_health.current ≤
        (run chapter1_config [Action.playCard 2, Action.endTurn]
          ).player_health.maximum ∧
      (∀ m ∈ (run chapter1_config [Action.playCard 2, Action.endTurn]
        ).monsters, 0 ≤ m.health.current) ∧
      (CardType.Heal ∉ chapter1_config.initial_hand →
        ∀ m ∈ (run chapter1_config [Action.playCard 2, Action.endTurn]
          ).monsters, m.health.current ≤ m.health.maximum)) :=
  ⟨⟨by decide, by decide⟩,
    C1_health_bounds chapter1_config [Action.playCard 2, Action.endTurn]
      (by decide) (by decide)⟩

/-! ### C2 -/

/-- C2 names a code bug: the spec (and the source's own comments at lines
6314-6316) say Heal heals the full-health hostile by HEAL_BASE_DAMAGE
clamped at its maximum; the code instead returns `+HEAL_BASE_DAMAGE` in that
case, which the damage loop subtracts.  Playing Heal (hand index 4) at the
start of chapter 4, with the single monster at full health 44/44, leaves it
at 36/44 — it is damaged, not healed. -/
theorem C2_heal_reversed :
    (run chapter4_config [Action.playCard 4]).monsters =
      [{ health := { current := 36, maximum := 44 }, damage := 100 }] ∧
    card_damage (init_session chapter4_config) CardType.Heal =
      HEAL_BASE_DAMAGE := by decide

/-! ### C3 -/

/-- C3 is false as stated: in `defeat_state_ch1` the player is at 0 health
and the death screen is up, yet playing a card or ending the turn still
changes the session state — there is no EncounterAlreadyConcluded rejection
anywhere in the code. -/
theorem C3_counterexample :
    defeat_state_ch1.player_health.current = 0 ∧
    0 < defeat_state_ch1.death_screens ∧
    (play_card 0 defeat_state_ch1).hand ≠ defeat_state_ch1.hand ∧
    (end_turn defeat_state_ch1).death_screens ≠
      defeat_state_ch1.death_screens := by decide

/-- The encounter has reached Defeat (player at 0) or Victory (victory
screen spawned). -/
def Concluded (s : Session) : Prop :=
  s.player_health.current ≤ 0 ∨ s.victory_screen = true

/-- C3 (amended): after the outcome has been reached, `play_card` and
`end_turn` are NOT rejected: whenever the turn owner is Player and the index
is valid they are processed exactly as in an ongoing encounter — the card is
appended to the played list and removed from the hand, and end-turn still
grants the pending Air cards and runs the enemy turn. -/
theorem C3_no_rejection_after_conclusion (s : Session) (i : Nat)
    (card : CardType) (_hconc : Concluded s)
    (ht : s.current_turn = Turn.Player) (hx : s.hand.get? i = some card) :
    (play_card i s).cards_played_this_turn =
        s.cards_played_this_turn ++ [card] ∧
    (play_card i s).hand = s.hand.eraseIdx i ∧
    (end_turn s).hand =
      s.hand ++ List.replicate s.pending_air_cards.toNat CardType.Air := by
  rcases play_card_proj ht hx with ⟨h1, h2, _, _, _, _⟩
  exact ⟨h1, h2, (end_turn_proj ht).1⟩

/-- Witness for C3: the amended behaviour at the concrete defeated
chapter-1 state. -/
theorem C3_no_rejection_witness :
    (Concluded defeat_state_ch1 ∧
      defeat_state_ch1.current_turn = Turn.Player ∧
      defeat_state_ch1.hand.get? 0 = some CardType.Earth) ∧
    ((play_card 0 defeat_state_ch1).cards_played_this_turn =
        defeat_state_ch1.cards_played_this_turn ++ [CardType.Earth] ∧
      (play_card 0 defeat_state_ch1).hand =
        defeat_state_ch1.hand.eraseIdx 0 ∧
      (end_turn defeat_state_ch1).hand =
        defeat_state_ch1.hand ++
          List.replicate defeat_state_ch1.pending_air_cards.toNat
            CardType.Air) :=
  ⟨⟨Or.inl (by decide), by decide, by decide⟩,
    C3_no_rejection_after_conclusion defeat_state_ch1 0 CardType.Earth
      (Or.inl (by decide)) (by decide) (by decide)⟩

/-! ### C4 -/

/-- C4 is false as stated: starting from a configuration whose hand holds an
Air card, playing it (pending := 2) and ending the turn grants 2 Air cards
but leaves the counter at 2 (not reset to 0); the next end-turn grants the
SAME 2 pending cards again, for 4 Air cards in hand after two boundaries. -/
theorem C4_counterexample :
    (run air_config [Action.playCard 0, Action.endTurn]).pending_air_cards
        = 2 ∧
    (run air_config
        [Action.playCard 0, Action.endTurn, Action.endTurn]).hand =
      [CardType.Air, CardType.Air, CardType.Air, CardType.Air] := by decide

/-- C4 (amended): at every PlayerTurn → EnemyTurn boundary a number of Air
cards equal to the pending-bonus counter is granted into the hand, but the
counter is never reset (the reset in `update_turn_state` is commented out),
so the same pending count is granted again at every later boundary. -/
theorem C4_grant_without_reset (s : Session)
    (h : s.current_turn = Turn.Player) :
    (end_turn s).hand =
        s.hand ++ List.replicate s.pending_air_cards.toNat CardType.Air ∧
      (end_turn s).pending_air_cards = s.pending_air_cards :=
  ⟨(end_turn_proj h).1, (end_turn_proj h).2.1⟩

/-- Witness for C4: the amended behaviour right after playing Air. -/
theorem C4_grant_without_reset_witness :
    (run air_config [Action.playCard 0]).current_turn = Turn.Player ∧
    ((end_turn (run air_config [Action.playCard 0])).hand =
        (run air_config [Action.playCard 0]).hand ++
          List.replicate
            (run air_config [Action.playCard 0]).pending_air_cards.toNat
            CardType.Air ∧
      (end_turn (run air_config [Action.playCard 0])).pending_air_cards =
        (run air_config [Action.playCard 0]).pending_air_cards) :=
  ⟨by decide,
    C4_grant_without_reset (run air_config [Action.playCard 0]) (by decide)⟩

/-! ### C5 -/

/-- C5 is false as stated: after the enemy resolution that brings the player
to 0 (fourth end turn of chapter 1), the death screen is up, yet the turn
owner is Player — `process_turn` switches back unconditionally instead of
halting in EnemyTurn. -/
theorem C5_counterexample :
    defeat_state_ch1.player_health.current = 0 ∧
    0 < defeat_state_ch1.death_screens ∧
    defeat_state_ch1.current_turn = Turn.Player := by decide

/-- C5 (amended): the enemy resolution triggered by an end-turn action
ALWAYS hands the turn back to Player — also when the player's health reached
0 and Defeat (the death screen) was recorded during the resolution. -/
theorem C5_returns_to_player (s : Session)
    (h : s.current_turn = Turn.Player) :
    (end_turn s).current_turn = Turn.Player :=
  (end_turn_proj h).2.2.1

/-- Witness for C5: the fourth chapter-1 end turn, which kills the player,
still returns the turn to Player. -/
theorem C5_returns_to_player_witness :
    (run chapter1_config [Action.endTurn, Action.endTurn, Action.endTurn]
      ).current_turn = Turn.Player ∧
    (end_turn
        (run chapter1_config
          [Action.endTurn, Action.endTurn, Action.endTurn])).current_turn =
      Turn.Player :=
  ⟨by decide,
    C5_returns_to_player
      (run chapter1_config [Action.endTurn, Action.endTurn, Action.endTurn])
      (by decide)⟩

/-! ### C6 -/

/-- C6 is false as stated: in the second player turn of chapter 1 (after Ice
and an end turn, monsters at 34/40), Fire played as the first card of that
turn deals only FIRE_BASE_DAMAGE = 8 (monsters → 26), not
`FIRE_BASE_DAMAGE + FIRE_FIRST_CARD_BONUS = 15` (which would leave 19): the
first-card flag was cleared by the turn-1 Ice and is never reset. -/
theorem C6_counterexample :
    c6_turn2_state.cards_played_this_turn = [CardType.Ice] ∧
    (play_card 2 c6_turn2_state).monsters.map (fun m => m.health.current) =
      [26, 26] ∧
    (34 : Int) - (FIRE_BASE_DAMAGE + FIRE_FIRST_CARD_BONUS) ≠ 26 := by decide

/-- C6 (amended): Fire deals `FIRE_BASE_DAMAGE + FIRE_FIRST_CARD_BONUS`
exactly when the first-card flag is still set, and in every reachable state
that flag is set exactly when NO card has been played in the entire
encounter (flag and played list are never reset at turn boundaries);
otherwise Fire deals exactly FIRE_BASE_DAMAGE. -/
theorem C6_fire_first_card (cfg : EncounterConfig) (acts : List Action) :
    card_damage (run cfg acts) CardType.Fire =
      (if (run cfg acts).first_card_played then
        FIRE_BASE_DAMAGE + FIRE_FIRST_CARD_BONUS
      else FIRE_BASE_DAMAGE) ∧
    ((run cfg acts).first_card_played = true ↔
      (run cfg acts).cards_played_this_turn = []) :=
  ⟨card_damage_fire _,
    firstInv_run_from acts ⟨fun _ => rfl, fun _ => rfl⟩⟩

/-! ### C7 -/

/-- C7: when Ice is played, its damage is doubled to `2 * ICE_BASE_DAMAGE`
when the immediately preceding card in the played-this-turn list is Fire, is
0 whenever the list contains an Earth (regardless of the Fire doubling), and
is exactly ICE_BASE_DAMAGE otherwise. -/
theorem C7_ice_rule (s : Session) :
    card_damage s CardType.Ice =
      if s.cards_played_this_turn.contains CardType.Earth then 0
      else if s.cards_played_this_turn.getLast? = some CardType.Fire then
        2 * ICE_BASE_DAMAGE
      else ICE_BASE_DAMAGE := by
  rw [card_damage_ice, mul_comm ICE_BASE_DAMAGE 2]

/-! ### C8 -/

/-- C8 is false as stated for Defeat: on the fourth chapter-1 end turn the
player reaches 0 and one death screen is spawned, but the fifth end turn is
still processed and spawns two MORE death screens (one per monster attack
that leaves the player at 0) — Defeat is not announced exactly once. -/
theorem C8_counterexample :
    (run chapter1_config
        [Action.endTurn, Action.endTurn, Action.endTurn, Action.endTurn]
      ).death_screens = 1 ∧
    (run chapter1_config
        [Action.endTurn, Action.endTurn, Action.endTurn, Action.endTurn,
          Action.endTurn]).death_screens = 3 := by decide

/-- C8 (amended): the Victory half of the claim holds: whenever the victory
screen has been recorded it was spawned exactly once, and any further
actions keep it recorded and never re-spawn it (`check_victory_condition` is
guarded by the screen's existence).  Defeat, by contrast, is re-announced
(see the counterexample: the death-screen spawn is unguarded). -/
theorem C8_victory_once (cfg : EncounterConfig) (acts more : List Action)
    (h : (run cfg acts).victory_screen = true) :
    (run cfg acts).victory_spawns = 1 ∧
    (run_from (run cfg acts) more).victory_screen = true ∧
    (run_from (run cfg acts) more).victory_spawns = 1 := by
  have hinv : VictoryInv (init_session cfg) := by
    constructor
    · show (false = true) ↔ (0 = 1)
      simp
    · show (0 : Nat) ≤ 1
      decide
  have hinv2 := victoryInv_run_from acts hinv
  have h1 : (run cfg acts).victory_spawns = 1 := hinv2.1.mp h
  rcases victory_persists_run_from more h with ⟨h2, h3⟩
  exact ⟨h1, h2, h3.trans h1⟩

/-- Witness for C8: chapter 1 after the killing sequence has victory
recorded; one further end turn keeps it recorded, spawned exactly once. -/
theorem C8_victory_once_witness :
    (run chapter1_config ch1_kill_acts).victory_screen = true ∧
    ((run chapter1_config ch1_kill_acts).victory_spawns = 1 ∧
      (run_from (run chapter1_config ch1_kill_acts)
        [Action.endTurn]).victory_screen = true ∧
      (run_from (run chapter1_config ch1_kill_acts)
        [Action.endTurn]).victory_spawns = 1) :=
  ⟨by decide,
    C8_victory_once chapter1_config ch1_kill_acts [Action.endTurn]
      (by decide)⟩

/-! ### C9 -/

/-- C9: playing Air always resolves to exactly AIR_BASE_DAMAGE, increments
the pending-bonus counter by exactly 2, adds nothing to the hand immediately
(the hand is exactly the old hand minus the played card), and the queued
bonus Air cards enter the hand at the next end-turn action. -/
theorem C9_air_behavior (s : Session) (i : Nat)
    (ht : s.current_turn = Turn.Player)
    (hx : s.hand.get? i = some CardType.Air) :
    card_damage s CardType.Air = AIR_BASE_DAMAGE ∧
    (play_card i s).pending_air_cards = s.pending_air_cards + 2 ∧
    (play_card i s).hand = s.hand.eraseIdx i ∧
    (end_turn (play_card i s)).hand =
      (play_card i s).hand ++
        List.replicate (play_card i s).pending_air_cards.toNat
          CardType.Air := by
  rcases play_card_proj ht hx with ⟨h1, h2, h3, h4, h5, h6⟩
  exact ⟨card_damage_air s, h3.trans (if_pos rfl), h2, (end_turn_proj h4).1⟩

/-- Witness for C9: playing the Air card of `air_config`. -/
theorem C9_air_behavior_witness :
    ((init_session air_config).current_turn = Turn.Player ∧
      (init_session air_config).hand.get? 0 = some CardType.Air) ∧
    (card_damage (init_session air_config) CardType.Air = AIR_BASE_DAMAGE ∧
      (play_card 0 (init_session air_config)).pending_air_cards =
        (init_session air_config).pending_air_cards + 2 ∧
      (play_card 0 (init_session air_config)).hand =
        (init_session air_config).hand.eraseIdx 0 ∧
      (end_turn (play_card 0 (init_session air_config))).hand =
        (play_card 0 (init_session air_config)).hand ++
          List.replicate
            (play_card 0 (init_session air_config)).pending_air_cards.toNat
            CardType.Air) :=
  ⟨⟨by decide, by decide⟩,
    C9_air_behavior (init_session air_config) 0 (by decide) (by decide)⟩

/-! ### C10 -/

/-- C10: once Earth is in the played-cards list it stays there for the rest
of the encounter — the list is append-only (every action appends, nothing
clears it, `update_turn_state` being commented out) — and every later Ice
play resolves to 0 damage. -/
theorem C10_earth_permanent (s : Session) (acts : List Action)
    (h : CardType.Earth ∈ s.cards_played_this_turn) :
    (∃ t, (run_from s acts).cards_played_this_turn =
        s.cards_played_this_turn ++ t) ∧
    CardType.Earth ∈ (run_from s acts).cards_played_this_turn ∧
    card_damage (run_from s acts) CardType.Ice = 0 := by
  rcases run_from_cards_append s acts with ⟨t, ht2⟩
  have hmem : CardType.Earth ∈ (run_from s acts).cards_played_this_turn := by
    rw [ht2]
    exact List.mem_append_left _ h
  refine ⟨⟨t, ht2⟩, hmem, ?_⟩
  rw [card_damage_ice, if_pos (List.elem_eq_true_of_mem hmem)]

/-- Witness for C10: Earth played at the start of chapter 1, followed by an
end turn and another card play in the next turn; Ice still resolves to 0. -/
theorem C10_earth_permanent_witness :
    CardType.Earth ∈
      (run chapter1_config [Action.playCard 0]).cards_played_this_turn ∧
    ((∃ t, (run_from (run chapter1_config [Action.playCard 0])
          [Action.endTurn, Action.playCard 0]).cards_played_this_turn =
        (run chapter1_config [Action.playCard 0]).cards_played_this_turn
          ++ t) ∧
      CardType.Earth ∈
        (run_from (run chapter1_config [Action.playCard 0])
          [Action.endTurn, Action.playCard 0]).cards_played_this_turn ∧
      card_damage
        (run_from (run chapter1_config [Action.playCard 0])
          [Action.endTurn, Action.playCard 0]) CardType.Ice = 0) :=
  ⟨by decide,
    C10_earth_permanent (run chapter1_config [Action.playCard 0])
      [Action.endTurn, Action.playCard 0] (by decide)⟩

end SpritiedTowards
